import Mathlib

/-!
Verification of the BLE coordination core of `rmk` (`src/rmk/src/ble.rs`):
the flash bonding-store coordinator task (`flash_task`), the report dispatch
loop (`keyboard_ble_task`), the battery task (`ble_battery_task`) and the
radio configuration builder (`nrf_ble_config`), shallowly embedded in Lean.
-/

namespace Rmk

/-- Maximum number of bonded devices (`BONDED_DEVICE_NUM` in ble.rs). -/
def BONDED_DEVICE_NUM : Nat := 8

/-- Modelled from the spec: `BondInfo` lives in `bonder.rs`, which is outside
the visible source. Per spec §3, a bond record carries a peer identity,
link-encryption key material and a slot index (`slot_num`, a `u8` used as the
store key in `flash_task`). -/
structure BondInfo where
  slot_num : Nat
  peer_id : Nat
  key_material : Nat
deriving DecidableEq, Repr

/-- Modelled from the spec and the uses in `flash_task`: the persistence
request enum `FlashOperationMessage` from `bonder.rs` with the two variants
consumed in ble.rs: `Clear(key)` and `BondInfo(b)`. -/
inductive FlashOperationMessage where
  | Clear (key : Nat)
  | BondInfo (b : BondInfo)
deriving DecidableEq, Repr

/-- Abstract state of the bond record store: the map semantics of the
external `sequential_storage` key-value log over `CONFIG_FLASH_RANGE`
(spec §2: external leaf, assumed correct, used as a black box). -/
abbrev BondStore : Type := Nat → Option BondInfo

/-- The empty bond store (no record at any slot). -/
def emptyStore : BondStore := fun _ => none

/-- Storage faults the external flash may report (spec §7: write/erase/read
errors, capacity exhaustion). -/
inductive StorageError where
  | io
  | corrupted
  | full
deriving DecidableEq, Repr

/-- Map-level effect of `sequential_storage::map::remove_item`: the record
under `key` is removed; absence of a record is not an error. -/
def removeApply (s : BondStore) (key : Nat) : BondStore :=
  fun k => if k = key then none else s k

/-- Map-level effect of `sequential_storage::map::store_item`: upsert the
record under its `slot_num` key, overwriting any prior record there. -/
def storeApply (s : BondStore) (b : BondInfo) : BondStore :=
  fun k => if k = b.slot_num then some b else s k

/-- Fallible `remove_item` as called by `flash_task`: the external flash may
fail with a storage fault (injected through `fault`); on success the record
under `key` is removed. Removing an absent record succeeds. -/
def remove_item (fault : Option StorageError) (s : BondStore) (key : Nat) :
    Except StorageError BondStore :=
  match fault with
  | some e => Except.error e
  | none => Except.ok (removeApply s key)

/-- Fallible `store_item` as called by `flash_task`: the external flash may
fail with a storage fault (injected through `fault`); on success the record
is upserted under its slot key. -/
def store_item (fault : Option StorageError) (s : BondStore) (b : BondInfo) :
    Except StorageError BondStore :=
  match fault with
  | some e => Except.error e
  | none => Except.ok (storeApply s b)

/-- One iteration of the `flash_task` loop body (ble.rs lines 82-109): match
on the received `FlashOperationMessage`; `Clear(key)` calls `remove_item`,
`BondInfo(b)` calls `store_item`; in both arms the `Result` is discarded with
`.ok()`, so on error the store is left as the flash left it (modelled as
unchanged) and no error escapes the match. -/
def flashTaskStep (s : BondStore) (m : FlashOperationMessage)
    (fault : Option StorageError) : BondStore :=
  match m with
  | FlashOperationMessage.Clear key =>
      match remove_item fault s key with
      | Except.ok s' => s'
      | Except.error _ => s
  | FlashOperationMessage.BondInfo b =>
      match store_item fault s b with
      | Except.ok s' => s'
      | Except.error _ => s

/-- State threaded through the `flash_task` loop: the abstract store plus
the number of requests received and fully handled so far. -/
structure FlashTaskState where
  store : BondStore
  processed : Nat

/-- The `flash_task` receive-apply loop (ble.rs lines 81-110), run until the
mailbox is drained: the queue lists the messages in mailbox arrival order,
each paired with the fault (if any) the flash reports for that operation.
Every iteration receives one message, applies `flashTaskStep` and loops. -/
def flashTaskRun (st : FlashTaskState)
    (queue : List (FlashOperationMessage × Option StorageError)) :
    FlashTaskState :=
  match queue with
  | [] => st
  | (m, fault) :: rest =>
      flashTaskRun ⟨flashTaskStep st.store m fault, st.processed + 1⟩ rest

/-- Follows the spec's words (§8 FIFO-apply equivalence, §4.2 contract):
apply one persistence request directly to the store — `Clear(key)` as
removal of the record at `key`, `Save(record)` as upsert at the record's
slot. This is the specification-side definition the task is compared to. -/
def specApplyRequest (s : BondStore) : FlashOperationMessage → BondStore
  | FlashOperationMessage.Clear key => fun k => if k = key then none else s k
  | FlashOperationMessage.BondInfo b =>
      fun k => if k = b.slot_num then some b else s k

/-- Follows the spec's words: apply a whole request sequence, in enqueue
order, directly to the store. -/
def specApplyAll (s : BondStore) (reqs : List FlashOperationMessage) :
    BondStore :=
  reqs.foldl specApplyRequest s

/-- A write operation as the flash store observes it: what `flash_task`
issues for each received request. -/
inductive StoreOp where
  | removeOp (key : Nat)
  | storeOp (b : BondInfo)
deriving DecidableEq, Repr

/-- The store operation `flash_task` issues for a request (ble.rs 84-108):
`Clear(key)` becomes `remove_item` keyed by `key`, `BondInfo(b)` becomes
`store_item` of `b` — the request's slot index is passed through verbatim. -/
def requestOp : FlashOperationMessage → StoreOp
  | FlashOperationMessage.Clear key => StoreOp.removeOp key
  | FlashOperationMessage.BondInfo b => StoreOp.storeOp b

/-- The slot index carried by a persistence request. -/
def requestSlot : FlashOperationMessage → Nat
  | FlashOperationMessage.Clear key => key
  | FlashOperationMessage.BondInfo b => b.slot_num

/-- The slot index a store operation is keyed by. -/
def opSlot : StoreOp → Nat
  | StoreOp.removeOp key => key
  | StoreOp.storeOp b => b.slot_num

/-- Begin/end events of flash write operations, as an instrumented store
double would record them. -/
inductive FlashEvent where
  | beginWrite (op : StoreOp)
  | endWrite (op : StoreOp)
deriving DecidableEq, Repr

/-- The event trace `flash_task` produces on the flash store when draining
the given mailbox content: each loop iteration receives one request, starts
its single store operation and `.await`s it to completion before the next
`receive` — so each operation's end event precedes the next begin event. -/
def flashEventTrace : List FlashOperationMessage → List FlashEvent
  | [] => []
  | m :: rest =>
      FlashEvent.beginWrite (requestOp m) ::
      FlashEvent.endWrite (requestOp m) :: flashEventTrace rest

/-- Checks along a trace, given the number of writes currently in flight,
that a write only begins when none is in flight and only ends when one is:
the non-reentrancy assertion of the instrumented store double. -/
def nonReentrantFrom : Nat → List FlashEvent → Bool
  | _, [] => true
  | inflight, FlashEvent.beginWrite _ :: rest =>
      decide (inflight = 0) && nonReentrantFrom (inflight + 1) rest
  | inflight, FlashEvent.endWrite _ :: rest =>
      decide (inflight = 1) && nonReentrantFrom (inflight - 1) rest

/-- A trace never has two writes in flight simultaneously. -/
def writesNeverOverlap (tr : List FlashEvent) : Bool :=
  nonReentrantFrom 0 tr

/-- The store operations that reach the flash store, in issue order,
recovered from the begin events of the trace. -/
def appliedOps (reqs : List FlashOperationMessage) : List StoreOp :=
  (flashEventTrace reqs).filterMap fun e =>
    match e with
    | FlashEvent.beginWrite op => some op
    | FlashEvent.endWrite _ => none

/-- An event stamped with the time (in seconds since task start) at which
it is observed. -/
structure Timed (α : Type) where
  time : Nat
  ev : α
deriving DecidableEq, Repr

/-- Observable events of `keyboard_ble_task`: completion of the startup
timer, completion of a matrix scan, and the four report send attempts. -/
inductive KbEvent where
  | startupTimerDone
  | scanMatrix
  | sendKeyboardReport
  | sendMediaReport
  | sendSystemControlReport
  | sendMouseReport
deriving DecidableEq, Repr

/-- Whether a `keyboard_ble_task` event is a report send attempt. -/
def isSendEvent : KbEvent → Bool
  | KbEvent.sendKeyboardReport => true
  | KbEvent.sendMediaReport => true
  | KbEvent.sendSystemControlReport => true
  | KbEvent.sendMouseReport => true
  | _ => false

/-- The loop of `keyboard_ble_task` (ble.rs 136-142) run for `n` cycles,
starting at time `t` with `k` awaited operations already performed. Each
cycle awaits `scan_matrix` (the scan event is stamped with its completion
time) and then performs the four sends in program order, each send stamped
with the time its attempt starts. `d j` is the duration the scheduler and
collaborators take for the `j`-th awaited operation; durations are
arbitrary nonnegative values, covering any cooperative interleaving. -/
def kbTimedCycles (d : Nat → Nat) : Nat → Nat → Nat → List (Timed KbEvent)
  | _, _, 0 => []
  | t, k, Nat.succ n =>
      ⟨t + d k, KbEvent.scanMatrix⟩ ::
      ⟨t + d k, KbEvent.sendKeyboardReport⟩ ::
      ⟨t + d k + d (k + 1), KbEvent.sendMediaReport⟩ ::
      ⟨t + d k + d (k + 1) + d (k + 2), KbEvent.sendSystemControlReport⟩ ::
      ⟨t + d k + d (k + 1) + d (k + 2) + d (k + 3), KbEvent.sendMouseReport⟩ ::
      kbTimedCycles d (t + d k + d (k + 1) + d (k + 2) + d (k + 3) + d (k + 4))
        (k + 5) n

/-- The timed event trace of `keyboard_ble_task` (ble.rs 114-143) observed
for `n` loop cycles: `Timer::after_secs(2)` completes at time 2, then the
scan/send loop runs. -/
def keyboard_ble_task (d : Nat → Nat) (n : Nat) : List (Timed KbEvent) :=
  ⟨2, KbEvent.startupTimerDone⟩ :: kbTimedCycles d 2 0 n

/-- Observable events of `ble_battery_task`: timer completions and battery
level pushes to the connected peer (`set_battery_value`). -/
inductive BatteryEvent where
  | timerDone (secs : Nat)
  | setBatteryValue (level : Nat)
deriving DecidableEq, Repr

/-- Whether a `ble_battery_task` event is a battery-level push. -/
def isPushEvent : BatteryEvent → Bool
  | BatteryEvent.setBatteryValue _ => true
  | _ => false

/-- The loop of `ble_battery_task` (ble.rs 150-153) run for `n` iterations
starting at time `t`: each iteration only awaits `Timer::after_secs(10)`. -/
def batteryLoop (t : Nat) : Nat → List (Timed BatteryEvent)
  | 0 => []
  | Nat.succ n => ⟨t + 10, BatteryEvent.timerDone 10⟩ :: batteryLoop (t + 10) n

/-- The timed event trace of `ble_battery_task` (ble.rs 146-154) observed
for `n` loop iterations: `Timer::after_secs(2)` completes at time 2, then
`set_battery_value(conn, &50)` is called once (a synchronous call, at time
2), then the loop only sleeps in 10-second steps. -/
def ble_battery_task (n : Nat) : List (Timed BatteryEvent) :=
  ⟨2, BatteryEvent.timerDone 2⟩ ::
  ⟨2, BatteryEvent.setBatteryValue 50⟩ :: batteryLoop 2 n

/-- Counts the battery-level pushes whose time lies in the window
`[lo, hi)`. -/
def pushesInWindow (lo hi : Nat) (tr : List (Timed BatteryEvent)) : Nat :=
  (tr.filter fun e =>
    isPushEvent e.ev && decide (lo ≤ e.time) && decide (e.time < hi)).length

/-- All battery-level push events of a trace, in order. -/
def pushes (tr : List (Timed BatteryEvent)) : List (Timed BatteryEvent) :=
  tr.filter fun e => isPushEvent e.ev

/-- Holds when no send attempt in the trace occurs before time `t`. -/
def noSendBefore (t : Nat) (tr : List (Timed KbEvent)) : Bool :=
  tr.all fun e => !isSendEvent e.ev || decide (t ≤ e.time)

/-- Holds when no battery-level push in the trace occurs before time `t`. -/
def noPushBefore (t : Nat) (tr : List (Timed BatteryEvent)) : Bool :=
  tr.all fun e => !isPushEvent e.ev || decide (t ≤ e.time)

/-- Checks that the event part of a keyboard-task trace is an exact
repetition of the per-cycle pattern: scan, then keyboard, media,
system-control and mouse report sends, in that order. -/
def cyclesWellFormed : List KbEvent → Bool
  | [] => true
  | KbEvent.scanMatrix :: KbEvent.sendKeyboardReport ::
    KbEvent.sendMediaReport :: KbEvent.sendSystemControlReport ::
    KbEvent.sendMouseReport :: rest => cyclesWellFormed rest
  | _ => false

/-- Checks that the timestamps of a trace never decrease, starting from
lower bound `t0`. -/
def chainFrom {α : Type} (t0 : Nat) : List (Timed α) → Bool
  | [] => true
  | e :: rest => decide (t0 ≤ e.time) && chainFrom e.time rest

/-- Checks that the timestamps of a trace never decrease. -/
def timesMonotone {α : Type} (tr : List (Timed α)) : Bool :=
  chainFrom 0 tr

/-- Device-name field of the softdevice configuration
(`raw::ble_gap_cfg_device_name_t` as filled in ble.rs 59-67): the name
pointer is kept abstract as the byte sequence it points to; `current_len`
and `max_len` are `u16` fields, so the `usize` byte length is reduced
modulo 2^16 by the `as u16` casts. -/
structure BleGapCfgDeviceName where
  value : List Nat
  current_len : Nat
  max_len : Nat
deriving DecidableEq, Repr

/-- GAP connection configuration (`raw::ble_gap_conn_cfg_t`). -/
structure BleGapConnCfg where
  conn_count : Nat
  event_length : Nat
deriving DecidableEq, Repr

/-- Role-count configuration (`raw::ble_gap_cfg_role_count_t`). -/
structure BleGapCfgRoleCount where
  adv_set_count : Nat
  periph_role_count : Nat
  central_role_count : Nat
  central_sec_count : Nat
deriving DecidableEq, Repr

/-- The parts of `nrf_softdevice::Config` that `nrf_ble_config` fills in
(ble.rs 36-70); the remaining fields take `Default::default()` and are not
modelled. -/
structure Config where
  conn_gap : BleGapConnCfg
  att_mtu : Nat
  gap_role_count : BleGapCfgRoleCount
  gap_device_name : BleGapCfgDeviceName
deriving DecidableEq, Repr

/-- The configuration builder `nrf_ble_config` (ble.rs 36-70). The keyboard
name is taken as its UTF-8 byte sequence (`str::len` is the byte length);
`current_len` and `max_len` both receive `keyboard_name.len() as u16`,
a truncating cast modelled as reduction modulo 2^16. -/
def nrf_ble_config (keyboard_name : List Nat) : Config :=
  { conn_gap := { conn_count := 6, event_length := 24 }
    att_mtu := 256
    gap_role_count :=
      { adv_set_count := 1
        periph_role_count := 3
        central_role_count := 3
        central_sec_count := 0 }
    gap_device_name :=
      { value := keyboard_name
        current_len := keyboard_name.length % 65536
        max_len := keyboard_name.length % 65536 } }

/-- The UTF-8 bytes of the device name `Foo`. -/
def fooName : List Nat := [70, 111, 111]

/-! Helper lemmas shared by the claim theorems. -/

/-- On the fault-free path, one `flash_task` iteration has exactly the
direct-application effect the spec describes. -/
theorem flashTaskStep_none (s : BondStore) (m : FlashOperationMessage) :
    flashTaskStep s m none = specApplyRequest s m := by
  cases m <;> rfl

/-- Draining a fault-free queue through the task loop computes the fold of
direct request application over the queue. -/
theorem flashTaskRun_store (reqs : List FlashOperationMessage) :
    ∀ st : FlashTaskState,
      (flashTaskRun st (reqs.map fun m => (m, (none : Option StorageError)))).store
        = specApplyAll st.store reqs := by
  induction reqs with
  | nil => intro st; rfl
  | cons m rest ih =>
      intro st
      simp only [List.map_cons, flashTaskRun]
      rw [ih ⟨flashTaskStep st.store m none, st.processed + 1⟩]
      simp [specApplyAll, flashTaskStep_none]

/-- The task loop handles every queued request, whatever the faults. -/
theorem flashTaskRun_processed
    (queue : List (FlashOperationMessage × Option StorageError)) :
    ∀ st : FlashTaskState,
      (flashTaskRun st queue).processed = st.processed + queue.length := by
  induction queue with
  | nil => intro st; simp [flashTaskRun]
  | cons p rest ih =>
      intro st
      cases p with
      | mk m fault =>
          simp only [flashTaskRun, List.length_cons]
          rw [ih ⟨flashTaskStep st.store m fault, st.processed + 1⟩]
          show st.processed + 1 + rest.length = st.processed + (rest.length + 1)
          omega

/-- The flash event trace alternates begin and end strictly. -/
theorem flashEventTrace_nonReentrant (reqs : List FlashOperationMessage) :
    nonReentrantFrom 0 (flashEventTrace reqs) = true := by
  induction reqs with
  | nil => rfl
  | cons m rest ih => simp [flashEventTrace, nonReentrantFrom, ih]

/-- Every event of the scan/send loop happens no earlier than the time the
loop segment starts. -/
theorem kbTimedCycles_time_lb (d : Nat → Nat) (n : Nat) :
    ∀ t k e, e ∈ kbTimedCycles d t k n → t ≤ e.time := by
  induction n with
  | zero => intro t k e he; simp [kbTimedCycles] at he
  | succ n ih =>
      intro t k e he
      simp only [kbTimedCycles, List.mem_cons] at he
      rcases he with h | h | h | h | h | h
      · subst h; show t ≤ t + d k; omega
      · subst h; show t ≤ t + d k; omega
      · subst h; show t ≤ t + d k + d (k + 1); omega
      · subst h; show t ≤ t + d k + d (k + 1) + d (k + 2); omega
      · subst h; show t ≤ t + d k + d (k + 1) + d (k + 2) + d (k + 3); omega
      · have := ih _ _ e h; omega

/-- The loop of `ble_battery_task` contains no push events. -/
theorem batteryLoop_no_push (m : Nat) :
    ∀ t e, e ∈ batteryLoop t m → isPushEvent e.ev = false := by
  induction m with
  | zero => intro t e he; simp [batteryLoop] at he
  | succ m ih =>
      intro t e he
      simp only [batteryLoop, List.mem_cons] at he
      rcases he with h | h
      · subst h; rfl
      · exact ih _ e h

/-- The loop of `ble_battery_task` contributes no pushes to the trace. -/
theorem batteryLoop_pushes (m : Nat) : ∀ t, pushes (batteryLoop t m) = [] := by
  induction m with
  | zero => intro t; rfl
  | succ m ih =>
      intro t
      have h := ih (t + 10)
      simp only [pushes] at h
      simp only [batteryLoop, pushes, List.filter_cons]
      simp [isPushEvent, h]
      intro a ha
      have hp := batteryLoop_no_push m (t + 10) a ha
      simpa [isPushEvent] using hp

/-- Every loop segment of the keyboard trace is an exact repetition of the
scan-then-four-sends cycle. -/
theorem kbTimedCycles_wellFormed (d : Nat → Nat) (n : Nat) :
    ∀ t k, cyclesWellFormed ((kbTimedCycles d t k n).map Timed.ev) = true := by
  induction n with
  | zero => intro t k; rfl
  | succ n ih =>
      intro t k
      simpa [kbTimedCycles, cyclesWellFormed] using ih _ _

/-- Timestamps along the scan/send loop never decrease. -/
theorem kbTimedCycles_chain (d : Nat → Nat) (n : Nat) :
    ∀ t k t0, t0 ≤ t → chainFrom t0 (kbTimedCycles d t k n) = true := by
  induction n with
  | zero => intro t k t0 h; rfl
  | succ n ih =>
      intro t k t0 h
      simp only [kbTimedCycles, chainFrom, Bool.and_eq_true, decide_eq_true_eq]
      refine ⟨by omega, by omega, by omega, by omega, by omega, ?_⟩
      exact ih _ _ _ (by omega)

/-- The slot a store operation carries is the slot its request carried. -/
theorem opSlot_requestOp (m : FlashOperationMessage) :
    opSlot (requestOp m) = requestSlot m := by
  cases m <;> rfl

/-- The operations reaching the store are the requests, translated one for
one in order. -/
theorem appliedOps_eq_map (reqs : List FlashOperationMessage) :
    appliedOps reqs = reqs.map requestOp := by
  induction reqs with
  | nil => rfl
  | cons m rest ih =>
      simp only [appliedOps, flashEventTrace, List.filterMap_cons, List.map_cons]
      simpa [appliedOps] using ih

/-! Claim theorems. -/

/-- C1: for every finite sequence of persistence requests enqueued by a
single producer, running `flash_task` until the mailbox is drained leaves
the bond store in exactly the state obtained by applying the same requests,
in enqueue order, directly to the store — `Clear(key)` as removal of the
record at `key`, `Save(record)` as upsert at the record's slot. The queue
lists the requests in single-producer FIFO order, all fault-free. -/
theorem C1_flash_task_fifo_apply_equivalence (s : BondStore)
    (reqs : List FlashOperationMessage) :
    (flashTaskRun ⟨s, 0⟩ (reqs.map fun m => (m, (none : Option StorageError)))).store
      = specApplyAll s reqs :=
  flashTaskRun_store reqs ⟨s, 0⟩

/-- C2: for every persistence request processed by `flash_task`, a storage
error from the underlying `store_item`/`remove_item` is discarded by `.ok()`
and surfaced to no caller — the step is a total function that, under a
fault, leaves the store as it was — and the task proceeds to the next
request: under every fault schedule the loop handles the whole queue, so no
storage failure terminates the receive-apply loop. -/
theorem C2_flash_task_discards_storage_errors
    (queue : List (FlashOperationMessage × Option StorageError))
    (s : BondStore) :
    (flashTaskRun ⟨s, 0⟩ queue).processed = queue.length ∧
    ∀ (s' : BondStore) (m : FlashOperationMessage) (e : StorageError),
      flashTaskStep s' m (some e) = s' := by
  constructor
  · have h := flashTaskRun_processed queue ⟨s, 0⟩
    simpa using h
  · intro s' m e
    cases m <;> rfl

/-- C3: under every interleaving of concurrently enqueued requests from
multiple producers — every such interleaving delivers some request list
`reqs` to the single consumer — the flash store never observes two write
operations in flight simultaneously: `flash_task`, the sole writer, awaits
each `store_item`/`remove_item` to completion before receiving the next
request, so its event trace (the complete sequence of operations the store
observes) is strictly non-reentrant. -/
theorem C3_single_writer_never_reentrant (reqs : List FlashOperationMessage) :
    writesNeverOverlap (flashEventTrace reqs) = true :=
  flashEventTrace_nonReentrant reqs

/-- C4 counterexample: the claim that `ble_battery_task` pushes exactly one
battery-level value per 10-second period is false on the code. Running the
task through two loop iterations, the trace reaches time 22 — so the second
period, the window `[12, 22)`, has fully elapsed — yet contains zero pushes
in that window: the only push happens at time 2, before the loop. -/
theorem C4_counterexample :
    pushesInWindow 12 22 (ble_battery_task 2) = 0 ∧
    ((ble_battery_task 2).any fun e => decide (22 ≤ e.time)) = true ∧
    (0 : Nat) ≠ 1 := by decide

/-- C4 (amended): however long `ble_battery_task` runs, it pushes a battery
level exactly once — the constant 50, at time 2, right after the startup
delay — and its loop only sleeps in 10-second steps, producing no further
pushes. -/
theorem C4_battery_pushes_exactly_once (n : Nat) :
    pushes (ble_battery_task n) = [⟨2, BatteryEvent.setBatteryValue 50⟩] := by
  have h := batteryLoop_pushes n 2
  simp only [pushes] at h ⊢
  simp [ble_battery_task, List.filter_cons, isPushEvent, h]
  intro a ha
  have hp := batteryLoop_no_push n 2 a ha
  simpa [isPushEvent] using hp

/-- C5: neither `keyboard_ble_task` nor `ble_battery_task` performs any send
attempt before 2 seconds have elapsed since the task started: in every
execution (any operation durations `d`, any numbers of loop iterations),
the first event of each trace is the completion of the 2-second startup
timer, every report send attempt is stamped at time at least 2, and every
battery push is stamped at time at least 2. -/
theorem C5_no_send_before_startup_delay (d : Nat → Nat) (n m : Nat) :
    (keyboard_ble_task d n).head? = some ⟨2, KbEvent.startupTimerDone⟩ ∧
    noSendBefore 2 (keyboard_ble_task d n) = true ∧
    (ble_battery_task m).head? = some ⟨2, BatteryEvent.timerDone 2⟩ ∧
    noPushBefore 2 (ble_battery_task m) = true := by
  refine ⟨rfl, ?_, rfl, ?_⟩
  · simp only [noSendBefore, keyboard_ble_task, List.all_cons, List.all_eq_true,
      Bool.and_eq_true]
    refine ⟨by simp [isSendEvent], ?_⟩
    intro e he
    have h2 : 2 ≤ e.time := kbTimedCycles_time_lb d n 2 0 e he
    simp [h2]
  · simp only [noPushBefore, ble_battery_task, List.all_cons, List.all_eq_true,
      Bool.and_eq_true]
    refine ⟨by simp [isPushEvent], by simp, ?_⟩
    intro e he
    have hp := batteryLoop_no_push m 2 e he
    simp [hp]

/-- C6: in every cycle of the `keyboard_ble_task` loop, the matrix scan of
that cycle completes before any send attempt of that cycle, and the four
send attempts occur in the fixed order keyboard, media, system-control,
mouse: after the startup-timer event, the trace is an exact repetition of
the cycle pattern scan, keyboard report, media report, system-control
report, mouse report, and its timestamps never decrease — the scan event
being stamped with the scan's completion time. -/
theorem C6_scan_then_fixed_send_order (d : Nat → Nat) (n : Nat) :
    cyclesWellFormed (((keyboard_ble_task d n).drop 1).map Timed.ev) = true ∧
    timesMonotone (keyboard_ble_task d n) = true := by
  constructor
  · simpa [keyboard_ble_task] using kbTimedCycles_wellFormed d n 2 0
  · simp only [timesMonotone, keyboard_ble_task, chainFrom, Bool.and_eq_true,
      decide_eq_true_eq]
    exact ⟨by omega, kbTimedCycles_chain d n 2 0 2 (le_refl 2)⟩

/-- C7: processing `Clear(slot)` is idempotent: from every store state,
one application of the `flash_task` clear path leaves no record at the
slot, a second application again leaves no record at the slot, and in both
applications the underlying `remove_item` succeeds — removal of an absent
record included — so no error is raised to any caller. -/
theorem C7_clear_idempotent (s : BondStore) (key : Nat) :
    flashTaskStep s (FlashOperationMessage.Clear key) none key = none ∧
    flashTaskStep (flashTaskStep s (FlashOperationMessage.Clear key) none)
      (FlashOperationMessage.Clear key) none key = none ∧
    remove_item none s key = Except.ok (removeApply s key) ∧
    remove_item none (removeApply s key) key
      = Except.ok (removeApply (removeApply s key) key) := by
  refine ⟨?_, ?_, rfl, rfl⟩ <;> simp [flashTaskStep, remove_item, removeApply]

/-- C8: for every store state and every pair of bond records carrying the
same slot index, processing `Save(r)` and then `Save(r')` through the
`flash_task` save path leaves exactly `r'` stored at that slot: the slot
holds `r'`, and the resulting store is the single upsert of `r'` into the
original store (last-write-wins, `r` overwritten). -/
theorem C8_save_last_write_wins (s : BondStore) (r r' : BondInfo)
    (h : r.slot_num = r'.slot_num) :
    flashTaskStep (flashTaskStep s (FlashOperationMessage.BondInfo r) none)
      (FlashOperationMessage.BondInfo r') none r'.slot_num = some r' ∧
    flashTaskStep (flashTaskStep s (FlashOperationMessage.BondInfo r) none)
      (FlashOperationMessage.BondInfo r') none = storeApply s r' := by
  constructor
  · simp [flashTaskStep, store_item, storeApply]
  · funext k
    by_cases hk : k = r'.slot_num
    · simp [flashTaskStep, store_item, storeApply, hk]
    · have hk2 : k ≠ r.slot_num := by rw [h]; exact hk
      simp [flashTaskStep, store_item, storeApply, hk, hk2]

/-- Witness for C8 at a concrete input: two records in slot 0. -/
theorem C8_witness :
    (⟨0, 1, 2⟩ : BondInfo).slot_num = (⟨0, 3, 4⟩ : BondInfo).slot_num ∧
    flashTaskStep
      (flashTaskStep emptyStore (FlashOperationMessage.BondInfo ⟨0, 1, 2⟩) none)
      (FlashOperationMessage.BondInfo ⟨0, 3, 4⟩) none
      (⟨0, 3, 4⟩ : BondInfo).slot_num = some ⟨0, 3, 4⟩ :=
  ⟨rfl, (C8_save_last_write_wins emptyStore ⟨0, 1, 2⟩ ⟨0, 3, 4⟩ rfl).1⟩

/-- C9 counterexample: the claim that every request with slot index at
least 8 is rejected or clamped before being applied is false on the code:
the request `Clear 9` is neither rejected (an operation is issued for it)
nor clamped (the operation is still keyed by 9): it reaches the store with
its out-of-range slot index intact. -/
theorem C9_counterexample :
    appliedOps [FlashOperationMessage.Clear 9] = [StoreOp.removeOp 9] ∧
    ((appliedOps [FlashOperationMessage.Clear 9]).all fun op =>
      decide (opSlot op < 8)) = false ∧
    ¬(9 : Nat) < 8 := by decide

/-- C9 (amended): `flash_task` performs no slot-bound check at all: every
request — slot index 8 or larger included — is forwarded to the store as
exactly one operation carrying the request's slot index unchanged; any
bound on slots is the external bonding manager's responsibility. -/
theorem C9_requests_reach_store_unchanged (reqs : List FlashOperationMessage) :
    appliedOps reqs = reqs.map requestOp ∧
    (appliedOps reqs).map opSlot = reqs.map requestSlot := by
  refine ⟨appliedOps_eq_map reqs, ?_⟩
  rw [appliedOps_eq_map reqs, List.map_map]
  exact List.map_congr_left fun m _ => opSlot_requestOp m

/-- C10 counterexample: the claim that for every supplied name the
device-name field's lengths equal the name's byte length is false on the
code: the `as u16` casts truncate, so a name of 65536 bytes yields a
current length of 0, not 65536. -/
theorem C10_counterexample :
    (nrf_ble_config (List.replicate 65536 0)).gap_device_name.current_len = 0 ∧
    (List.replicate 65536 (0 : Nat)).length = 65536 ∧
    (0 : Nat) ≠ 65536 := by
  have key : ∀ name : List Nat, name.length = 65536 →
      (nrf_ble_config name).gap_device_name.current_len = 0 := by
    intro name h
    show name.length % 65536 = 0
    rw [h]
  exact ⟨key _ (List.length_replicate 65536 0),
    List.length_replicate 65536 0, by norm_num⟩

/-- C10 (amended): `nrf_ble_config` called with the device name `Foo`
produces a configuration whose device-name field has current length 3 and
max length 3; in general, for every supplied name, both lengths equal the
byte length of the name reduced modulo 2^16 — the value of the truncating
`as u16` cast — which is the byte length itself whenever the name is
shorter than 65536 bytes. -/
theorem C10_device_name_lengths :
    (nrf_ble_config fooName).gap_device_name.current_len = 3 ∧
    (nrf_ble_config fooName).gap_device_name.max_len = 3 ∧
    ∀ name : List Nat,
      (nrf_ble_config name).gap_device_name.current_len = name.length % 65536 ∧
      (nrf_ble_config name).gap_device_name.max_len = name.length % 65536 :=
  ⟨rfl, rfl, fun _ => ⟨rfl, rfl⟩⟩

end Rmk
